import Mathlib

/-!
Verification of `unidecode-plus-plus` (`src/unidecode.js`).

Shallow embedding of the transliteration core. A JavaScript string is
modelled as a `List Nat` of Unicode code points (the scanner regex
`/[^\x00-\x7F]/gu` walks the input one code point at a time; lone
surrogates remain representable as the values 0xD800–0xDFFF). The data
tables under `data/` are external to `src/`, so the table store is an
opaque parameter: `Store` maps a page key (high byte, plus the German
half-page flag for `high + 0.5`) to an optional list of replacement
strings, exactly the interface `require('./data/x…')` provides.
-/

namespace UnidecodePlus

/-- A page key: the code point's high byte, paired with a flag that is
`true` for the German half page (`row = high + 0.5` in the source,
possible only when `high = 0`). -/
abbrev Row := Nat × Bool

/-- A raw table page as loaded from the external store: a list of
replacement strings (each a list of code points), possibly shorter
than 256 entries. -/
abbrev Page := List (List Nat)

/-- The external table store (`require('./data/x…')`): `none` models a
load failure (missing or unloadable page). -/
abbrev Store := Row → Option Page

/-- The memoization cache `dataCache` keyed by row. -/
abbrev Cache := Row → Option Page

/-- Resolved options, as produced by `prepareOptions`. -/
structure Options where
  german : Bool
  smartSpacing : Bool
  deferredSmartSpacing : Bool
  skipRanges : List (Nat × Nat)

/-- User-supplied options: every field may be absent (`undefined`). -/
structure RawOptions where
  german : Option Bool
  smartSpacing : Option Bool
  deferredSmartSpacing : Option Bool
  skipRanges : Option (List (Nat × Nat))

/-- `prepareOptions` (src/unidecode.js:34-41): defaults `german`,
`deferredSmartSpacing` and `skipRanges`; `smartSpacing` is forced on
when `deferredSmartSpacing` is truthy, else defaulted to `false`. -/
def prepareOptions (r : RawOptions) : Options :=
  Options.mk
    (r.german.getD false)
    (if r.deferredSmartSpacing.getD false then true else r.smartSpacing.getD false)
    (r.deferredSmartSpacing.getD false)
    (r.skipRanges.getD [])

/-- JavaScript regex `\w` without the `u` flag: `[A-Za-z0-9_]`. -/
def isWordChar (c : Nat) : Bool :=
  (65 ≤ c && c ≤ 90) || (97 ≤ c && c ≤ 122) || (48 ≤ c && c ≤ 57) || c == 95

/-- JavaScript whitespace (`\s`, and the set trimmed by
`String.prototype.trim`): WhiteSpace ∪ LineTerminator. -/
def isSpaceJS (c : Nat) : Bool :=
  c == 9 || c == 10 || c == 11 || c == 12 || c == 13 || c == 32 ||
  c == 0xA0 || c == 0x1680 || (0x2000 ≤ c && c ≤ 0x200A) ||
  c == 0x2028 || c == 0x2029 || c == 0x202F || c == 0x205F ||
  c == 0x3000 || c == 0xFEFF

/-- `String.prototype.trim`: strip JS whitespace from both ends. -/
def trimJS (l : List Nat) : List Nat :=
  ((l.dropWhile isSpaceJS).reverse.dropWhile isSpaceJS).reverse

/-- Padding of a short page (src/unidecode.js:96-100): a page with
fewer than 256 entries has its length set to 256 and the tail filled
with `"_"`. -/
def padPage (entries : Page) : Page :=
  if entries.length < 256 then
    entries ++ List.replicate (256 - entries.length) [0x5F]
  else entries

/-- The all-`"_"` fallback page installed when a page load fails
(src/unidecode.js:102): `new Array(256).fill('_')`. -/
def fallbackPage : Page := List.replicate 256 [0x5F]

/-- The lazy memoized page load (src/unidecode.js:91-104): a cache hit
returns the cached page untouched; otherwise the store is consulted,
the result padded (or, on failure, replaced by `fallbackPage`), and
the cache extended at this row. -/
def loadPage (store : Store) (cache : Cache) (row : Row) : Page × Cache :=
  match cache row with
  | some p => (p, cache)
  | none =>
    let p := match store row with
      | some entries => padPage entries
      | none => fallbackPage
    (p, fun r => if r = row then some p else cache r)

/-- The pure table lookup `dataCache[row][low]` (src/unidecode.js:106),
expressed as a load from an empty cache. The default of `getD` is
unreachable for `low < 256` since loaded pages have length ≥ 256. -/
def pageEntry (store : Store) (row : Row) (low : Nat) : List Nat :=
  ((loadPage store (fun _ => none) row).1).getD low [0x5F]

/-- `replacer` (src/unidecode.js:67-117): the per-code-point
substitution for a non-ASCII code point. -/
def replacer (store : Store) (o : Options) (cp : Nat) : List Nat :=
  if o.skipRanges.any (fun r => r.1 ≤ cp && cp ≤ r.2) then
    [cp]
  else
    let high := cp >>> 8
    let low := cp &&& 0xFF
    let emDash := cp == 0x2014
    let emoji := high == 0x1F4 || high == 0x1F6 || high == 0x1F9
    if (0x18 < high && high < 0x1E) || (0xD7 < high && high < 0xF9) then
      []
    else if high > 0xFF && !emoji then
      [0x5F]
    else
      let row : Row := (high, high == 0 && o.german)
      let newChar := pageEntry store row low
      if o.smartSpacing && emDash then
        [0x80, 0x2D, 0x2D, 0x80]
      else if !o.smartSpacing || newChar == [0x5B, 0x3F, 0x5D] || newChar == [0x5F] ||
          (!newChar.isEmpty && newChar.all isWordChar) then
        newChar
      else if emoji then
        [0x80, 0x81] ++ newChar ++ [0x81, 0x80]
      else
        [0x80] ++ trimJS newChar ++ [0x80]

/-- Pass 1 of `resolveSpacing` (src/unidecode.js:121):
`/(\w)(\x80--\x80)(\w)/g → "$1 - $3"`. The `fuel` argument, always
initialized to the list length by `pass1`, strictly dominates the
number of scan steps, so the fuel-exhausted branch is unreachable; it
only makes the recursion structural. -/
def pass1F : Nat → List Nat → List Nat
  | 0, l => l
  | _ + 1, [] => []
  | fuel + 1, a :: tail =>
    match tail with
    | 128 :: 45 :: 45 :: 128 :: b :: rest =>
      if isWordChar a && isWordChar b then
        a :: 32 :: 45 :: 32 :: b :: pass1F fuel rest
      else
        a :: pass1F fuel tail
    | _ => a :: pass1F fuel tail

/-- Pass 1 at full fuel. -/
def pass1 (l : List Nat) : List Nat := pass1F l.length l

/-- Does the list start with a word character? (the lookahead `(?=\w)`). -/
def headIsWord (l : List Nat) : Bool :=
  (l.head?.map isWordChar).getD false

/-- Pass 2 (src/unidecode.js:122): `/\x80(?!\w)/g → ""`. -/
def pass2 : List Nat → List Nat
  | [] => []
  | c :: rest =>
    if c == 128 then
      if headIsWord rest then 128 :: pass2 rest else pass2 rest
    else c :: pass2 rest

/-- Pass 3 (src/unidecode.js:123): `/\x80\x80|(\w)\x80/g → "$1\x81"`
(the first alternative tried first at each position); fuel as in
`pass1F`. -/
def pass3F : Nat → List Nat → List Nat
  | 0, l => l
  | _ + 1, [] => []
  | fuel + 1, c :: tail =>
    match c, tail with
    | 128, 128 :: rest => 129 :: pass3F fuel rest
    | c, 128 :: rest =>
      if isWordChar c then c :: 129 :: pass3F fuel rest else c :: pass3F fuel tail
    | c, _ => c :: pass3F fuel tail

/-- Pass 3 at full fuel. -/
def pass3 (l : List Nat) : List Nat := pass3F l.length l

/-- Pass 4 (src/unidecode.js:124): `/\x80/g → ""`. -/
def pass4 (l : List Nat) : List Nat :=
  l.filter (fun c => c != 128)

/-- Pass 5 (src/unidecode.js:125): `/^\x81+|\x81+$/g → ""` — strip a
leading and a trailing run of 0x81. -/
def pass5 (l : List Nat) : List Nat :=
  ((l.dropWhile (fun c => c == 129)).reverse.dropWhile (fun c => c == 129)).reverse

/-- Pass 6 (src/unidecode.js:126): `/\x81 \x81/g → "  "`; fuel as in
`pass1F`. -/
def pass6F : Nat → List Nat → List Nat
  | 0, l => l
  | _ + 1, [] => []
  | fuel + 1, c :: tail =>
    match c, tail with
    | 129, 32 :: 129 :: rest => 32 :: 32 :: pass6F fuel rest
    | c, _ => c :: pass6F fuel tail

/-- Pass 6 at full fuel. -/
def pass6 (l : List Nat) : List Nat := pass6F l.length l

/-- Pass 7 (src/unidecode.js:127): `/\s?\x81+/g → " "`. The flag is
`true` while inside a 0x81 run whose single replacement space has
already been emitted. -/
def pass7aux : Bool → List Nat → List Nat
  | _, [] => []
  | inRun, c :: rest =>
    if c == 129 then
      if inRun then pass7aux true rest else 32 :: pass7aux true rest
    else if isSpaceJS c && rest.head? == some 129 then
      32 :: pass7aux true rest
    else
      c :: pass7aux false rest

/-- `resolveSpacing` (src/unidecode.js:119-128): the seven rewrite
passes, in source order. -/
def resolveSpacing (l : List Nat) : List Nat :=
  pass7aux false (pass6 (pass5 (pass4 (pass3 (pass2 (pass1 l))))))

/-- German pre-pass, upper case (src/unidecode.js:53):
`/([AOU])̈/g → "$1E"` (U+0308 = 776, the combining diaeresis);
fuel as in `pass1F`. -/
def germanUpperF : Nat → List Nat → List Nat
  | 0, l => l
  | _ + 1, [] => []
  | fuel + 1, c :: tail =>
    match tail with
    | 776 :: rest =>
      if c == 65 || c == 79 || c == 85 then c :: 69 :: germanUpperF fuel rest
      else c :: germanUpperF fuel tail
    | _ => c :: germanUpperF fuel tail

/-- Upper-case German pre-pass at full fuel. -/
def germanUpper (l : List Nat) : List Nat := germanUpperF l.length l

/-- German pre-pass, lower case (src/unidecode.js:53):
`/([aou])̈/g → "$1e"`; fuel as in `pass1F`. -/
def germanLowerF : Nat → List Nat → List Nat
  | 0, l => l
  | _ + 1, [] => []
  | fuel + 1, c :: tail =>
    match tail with
    | 776 :: rest =>
      if c == 97 || c == 111 || c == 117 then c :: 101 :: germanLowerF fuel rest
      else c :: germanLowerF fuel tail
    | _ => c :: germanLowerF fuel tail

/-- Lower-case German pre-pass at full fuel. -/
def germanLower (l : List Nat) : List Nat := germanLowerF l.length l

/-- The exported `unidecode` function (src/unidecode.js:43-65): an
empty input short-circuits; otherwise the German pre-pass (when
enabled), then the scan replacing every code point above 0x7F via
`replacer`, then `resolveSpacing` unless smart spacing is off or
deferred. -/
def unidecode (store : Store) (raw : RawOptions) (s : List Nat) : List Nat :=
  if s.isEmpty then []
  else
    let o := prepareOptions raw
    let s1 := if o.german then germanLower (germanUpper s) else s
    let s2 := s1.flatMap (fun c => if c ≤ 0x7F then [c] else replacer store o c)
    if !o.smartSpacing || o.deferredSmartSpacing then s2 else resolveSpacing s2

/-- The spec's name for the public entry point. -/
def transliterate : Store → RawOptions → List Nat → List Nat := unidecode

/-- Raw options with every field absent. -/
def rawNone : RawOptions := RawOptions.mk none none none none

/-- A store on which every page load fails. -/
def storeEmpty : Store := fun _ => none


/-! ## Identity of the Spacing Resolver on sentinel-free strings -/

lemma pass1F_id (fuel : Nat) (l : List Nat) (h : ∀ c ∈ l, c ≠ 128) :
    pass1F fuel l = l := by
  induction fuel, l using pass1F.induct with
  | case1 l => rfl
  | case2 n => rfl
  | case3 fuel a b rest hw ih => exact absurd rfl (h 128 (by simp))
  | case4 fuel a b rest hw ih => exact absurd rfl (h 128 (by simp))
  | case5 fuel a tail hne ih =>
    simp only [pass1F]
    rw [ih fun c hc => h c (List.mem_cons_of_mem _ hc)]

lemma pass2_id (l : List Nat) (h : ∀ c ∈ l, c ≠ 128) : pass2 l = l := by
  induction l using pass2.induct with
  | case1 => rfl
  | case2 c rest hc hw ih => simp at hc; exact absurd hc (h c (by simp))
  | case3 c rest hc hw ih => simp at hc; exact absurd hc (h c (by simp))
  | case4 c rest hc ih =>
    simp only [pass2]
    rw [if_neg hc, ih fun d hd => h d (List.mem_cons_of_mem _ hd)]

lemma pass3F_id (fuel : Nat) (l : List Nat) (h : ∀ c ∈ l, c ≠ 128) :
    pass3F fuel l = l := by
  induction fuel, l using pass3F.induct with
  | case1 l => rfl
  | case2 n => rfl
  | case3 fuel rest ih => exact absurd rfl (h 128 (by simp))
  | case4 fuel c rest hc hw ih => exact absurd rfl (h 128 (by simp))
  | case5 fuel c rest hc hw ih => exact absurd rfl (h 128 (by simp))
  | case6 fuel tail c hne1 hne2 ih =>
    simp only [pass3F]
    rw [ih fun d hd => h d (List.mem_cons_of_mem _ hd)]

lemma pass4_id (l : List Nat) (h : ∀ c ∈ l, c ≠ 128) : pass4 l = l := by
  unfold pass4
  exact List.filter_eq_self.mpr fun c hc => by simpa using h c hc

lemma pass5_id (l : List Nat) (h : ∀ c ∈ l, c ≠ 129) : pass5 l = l := by
  unfold pass5
  have h1 : l.dropWhile (fun c => c == 129) = l := by
    cases l with
    | nil => rfl
    | cons a tl =>
      rw [List.dropWhile_cons_of_neg]
      simpa using h a (by simp)
  rw [h1]
  have h2 : l.reverse.dropWhile (fun c => c == 129) = l.reverse := by
    cases hr : l.reverse with
    | nil => rfl
    | cons a tl =>
      rw [List.dropWhile_cons_of_neg]
      have : a ∈ l := by
        have : a ∈ l.reverse := by rw [hr]; simp
        simpa using this
      simpa using h a this
  rw [h2, List.reverse_reverse]

lemma pass6F_id (fuel : Nat) (l : List Nat) (h : ∀ c ∈ l, c ≠ 129) :
    pass6F fuel l = l := by
  induction fuel, l using pass6F.induct with
  | case1 l => rfl
  | case2 n => rfl
  | case3 fuel rest ih => exact absurd rfl (h 129 (by simp))
  | case4 fuel tail c hne ih =>
    simp only [pass6F]
    rw [ih fun d hd => h d (List.mem_cons_of_mem _ hd)]

lemma pass7aux_id (b : Bool) (l : List Nat) (h : ∀ c ∈ l, c ≠ 129) :
    pass7aux b l = l := by
  induction b, l using pass7aux.induct with
  | case1 b => rfl
  | case2 c rest hc ih => simp at hc; exact absurd hc (h c (by simp))
  | case3 inRun c rest hc hr ih => simp at hc; exact absurd hc (h c (by simp))
  | case4 inRun c rest hc hsp ih =>
    simp only [Bool.and_eq_true] at hsp
    have : (129 : Nat) ∈ rest := by
      cases hr : rest.head? with
      | none => rw [hr] at hsp; simp at hsp
      | some d =>
        have : d = 129 := by rw [hr] at hsp; simpa using hsp.2
        subst this
        exact List.mem_of_mem_head? hr
    exact absurd rfl (h 129 (List.mem_cons_of_mem _ this))
  | case5 inRun c rest hc hsp ih =>
    simp only [pass7aux]
    rw [if_neg hc, if_neg hsp, ih fun d hd => h d (List.mem_cons_of_mem _ hd)]

/-- `resolveSpacing` is the identity on sentinel-free strings. -/
lemma resolveSpacing_id (l : List Nat) (h : ∀ c ∈ l, c ≠ 128 ∧ c ≠ 129) :
    resolveSpacing l = l := by
  unfold resolveSpacing pass1 pass3 pass6
  rw [pass1F_id _ _ fun c hc => (h c hc).1,
      pass2_id _ fun c hc => (h c hc).1,
      pass3F_id _ _ fun c hc => (h c hc).1,
      pass4_id _ fun c hc => (h c hc).1,
      pass5_id _ fun c hc => (h c hc).2,
      pass6F_id _ _ fun c hc => (h c hc).2,
      pass7aux_id _ _ fun c hc => (h c hc).2]


lemma mem_pass5 {c : Nat} {l : List Nat} (h : c ∈ pass5 l) : c ∈ l := by
  unfold pass5 at h
  rw [List.mem_reverse] at h
  have h1 := (List.dropWhile_sublist (l := (l.dropWhile (fun c => c == 129)).reverse)
    (p := fun c => c == 129)).mem h
  rw [List.mem_reverse] at h1
  exact (List.dropWhile_sublist (l := l) (p := fun c => c == 129)).mem h1

lemma mem_pass6F {c : Nat} {fuel : Nat} {l : List Nat} (h : c ∈ pass6F fuel l) :
    c ∈ l ∨ c = 32 := by
  induction fuel, l using pass6F.induct with
  | case1 l => exact Or.inl h
  | case2 n => exact Or.inl h
  | case3 fuel rest ih =>
    simp only [pass6F, List.mem_cons] at h
    rcases h with h | h | h
    · exact Or.inr h
    · exact Or.inr h
    · rcases ih h with h' | h'
      · exact Or.inl (by simp [h'])
      · exact Or.inr h'
  | case4 fuel tail d hne ih =>
    simp only [pass6F, List.mem_cons] at h
    rcases h with h | h
    · exact Or.inl (by simp [h])
    · rcases ih h with h' | h'
      · exact Or.inl (List.mem_cons_of_mem _ h')
      · exact Or.inr h'

lemma not_mem_128_pass4 (l : List Nat) : (128 : Nat) ∉ pass4 l := by
  unfold pass4
  intro h
  have := List.of_mem_filter h
  simp at this
lemma mem_pass7aux {c : Nat} {b : Bool} {l : List Nat} (h : c ∈ pass7aux b l) :
    c ∈ l ∨ c = 32 := by
  induction b, l using pass7aux.induct with
  | case1 b => exact Or.inl h
  | case2 d rest hd ih =>
    simp only [pass7aux, hd, if_pos, if_true] at h
    rcases ih h with h' | h'
    · exact Or.inl (List.mem_cons_of_mem _ h')
    · exact Or.inr h'
  | case3 inRun d rest hd hr ih =>
    have hf : inRun = false := by revert hr; cases inRun <;> simp
    subst hf
    simp only [pass7aux, hd, if_true, Bool.false_eq_true, if_false, List.mem_cons] at h
    rcases h with h | h
    · exact Or.inr h
    · rcases ih h with h' | h'
      · exact Or.inl (List.mem_cons_of_mem _ h')
      · exact Or.inr h'
  | case4 inRun d rest hd hsp ih =>
    simp only [pass7aux, hd, hsp, Bool.false_eq_true, if_false, if_true,
      List.mem_cons] at h
    rcases h with h | h
    · exact Or.inr h
    · rcases ih h with h' | h'
      · exact Or.inl (List.mem_cons_of_mem _ h')
      · exact Or.inr h'
  | case5 inRun d rest hd hsp ih =>
    simp only [pass7aux, hd, hsp, Bool.false_eq_true, if_false, List.mem_cons] at h
    rcases h with h | h
    · exact Or.inl (by simp [h])
    · rcases ih h with h' | h'
      · exact Or.inl (List.mem_cons_of_mem _ h')
      · exact Or.inr h'

lemma not_mem_129_pass7aux (b : Bool) (l : List Nat) : (129 : Nat) ∉ pass7aux b l := by
  induction b, l using pass7aux.induct with
  | case1 b => simp [pass7aux]
  | case2 d rest hd ih =>
    simp only [pass7aux, hd, if_pos, if_true]
    exact ih
  | case3 inRun d rest hd hr ih =>
    have hf : inRun = false := by revert hr; cases inRun <;> simp
    subst hf
    simp only [pass7aux, hd, if_true, Bool.false_eq_true, if_false, List.mem_cons]
    intro h
    rcases h with h | h
    · omega
    · exact ih h
  | case4 inRun d rest hd hsp ih =>
    simp only [pass7aux, hd, hsp, Bool.false_eq_true, if_false, if_true, List.mem_cons]
    intro h
    rcases h with h | h
    · omega
    · exact ih h
  | case5 inRun d rest hd hsp ih =>
    simp only [pass7aux, hd, hsp, Bool.false_eq_true, if_false, List.mem_cons]
    intro h
    rcases h with h | h
    · simp at hd; omega
    · exact ih h

/-- The Spacing Resolver's output never contains a sentinel. -/
lemma resolveSpacing_no_sentinels (l : List Nat) :
    (128 : Nat) ∉ resolveSpacing l ∧ (129 : Nat) ∉ resolveSpacing l := by
  unfold resolveSpacing pass6
  constructor
  · intro h
    rcases mem_pass7aux h with h | h
    · rcases mem_pass6F h with h | h
      · exact not_mem_128_pass4 _ (mem_pass5 h)
      · omega
    · omega
  · exact not_mem_129_pass7aux _ _


/-! ## The German pre-pass and the scanner on ASCII input -/

lemma germanUpperF_id (fuel : Nat) (l : List Nat) (h : ∀ c ∈ l, c ≠ 776) :
    germanUpperF fuel l = l := by
  induction fuel, l using germanUpperF.induct with
  | case1 l => rfl
  | case2 n => rfl
  | case3 fuel a rest ha ih => exact absurd rfl (h 776 (by simp))
  | case4 fuel a rest ha ih => exact absurd rfl (h 776 (by simp))
  | case5 fuel a tail hne ih =>
    simp only [germanUpperF]
    rw [ih fun c hc => h c (List.mem_cons_of_mem _ hc)]

lemma germanLowerF_id (fuel : Nat) (l : List Nat) (h : ∀ c ∈ l, c ≠ 776) :
    germanLowerF fuel l = l := by
  induction fuel, l using germanLowerF.induct with
  | case1 l => rfl
  | case2 n => rfl
  | case3 fuel a rest ha ih => exact absurd rfl (h 776 (by simp))
  | case4 fuel a rest ha ih => exact absurd rfl (h 776 (by simp))
  | case5 fuel a tail hne ih =>
    simp only [germanLowerF]
    rw [ih fun c hc => h c (List.mem_cons_of_mem _ hc)]

lemma scan_ascii_id (g : Nat → List Nat) (l : List Nat) (h : ∀ c ∈ l, c ≤ 127) :
    (l.flatMap fun c => if c ≤ 127 then [c] else g c) = l := by
  induction l with
  | nil => rfl
  | cons a tl ih =>
    rw [List.flatMap_cons, if_pos (h a (by simp)),
      ih fun c hc => h c (List.mem_cons_of_mem _ hc)]
    rfl

/-! ## The page cache -/

lemma loadPage_cached (store : Store) (cache : Cache) (row : Row) (p : Page)
    (h : cache row = some p) : loadPage store cache row = (p, cache) := by
  unfold loadPage
  rw [h]

lemma loadPage_idem (store : Store) (cache : Cache) (row : Row) :
    loadPage store (loadPage store cache row).2 row = loadPage store cache row := by
  unfold loadPage
  cases h : cache row with
  | some p => simp [h]
  | none => simp [h]

lemma loadPage_fallback (store : Store) (cache : Cache) (row : Row)
    (hc : cache row = none) (hs : store row = none) :
    loadPage store cache row =
      (fallbackPage, fun r => if r = row then some fallbackPage else cache r) := by
  unfold loadPage
  rw [hc, hs]

lemma getD_replicate_self (n k : Nat) (a : List Nat) :
    (List.replicate n a).getD k a = a := by
  induction n generalizing k with
  | zero => simp [List.getD]
  | succ n ih =>
    cases k with
    | zero => simp [List.replicate_succ]
    | succ k => simp [List.replicate_succ, ih k]

lemma pageEntry_none (store : Store) (row : Row) (low : Nat)
    (hs : store row = none) : pageEntry store row low = [0x5F] := by
  unfold pageEntry loadPage
  simp only [hs]
  exact getD_replicate_self 256 low [0x5F]

/-! ## Branches of `replacer` -/

lemma skipAny_eq_false {o : Options} {cp : Nat}
    (hskip : ∀ r ∈ o.skipRanges, ¬(r.1 ≤ cp ∧ cp ≤ r.2)) :
    (o.skipRanges.any fun r => r.1 ≤ cp && cp ≤ r.2) = false := by
  rw [List.any_eq_false]
  intro r hr
  simp only [Bool.and_eq_true, decide_eq_true_eq, not_and]
  intro h1 h2
  exact hskip r hr ⟨h1, h2⟩

/-- A code point inside a configured skip range passes through. -/
lemma replacer_skip (store : Store) (o : Options) (cp lo hi : Nat)
    (hmem : (lo, hi) ∈ o.skipRanges) (h1 : lo ≤ cp) (h2 : cp ≤ hi) :
    replacer store o cp = [cp] := by
  simp only [replacer]
  rw [if_pos (List.any_eq_true.mpr ⟨(lo, hi), hmem, by simp [h1, h2]⟩)]

/-- A code point whose high byte lies in one of the two drop bands is
replaced by the empty string. -/
lemma replacer_band (store : Store) (o : Options) (cp : Nat)
    (hskip : ∀ r ∈ o.skipRanges, ¬(r.1 ≤ cp ∧ cp ≤ r.2))
    (hband : (0x18 < cp >>> 8 ∧ cp >>> 8 < 0x1E) ∨
             (0xD7 < cp >>> 8 ∧ cp >>> 8 < 0xF9)) :
    replacer store o cp = [] := by
  simp only [replacer]
  rw [if_neg (by rw [skipAny_eq_false hskip]; simp)]
  rw [if_pos (by simp only [Bool.or_eq_true, Bool.and_eq_true, decide_eq_true_eq]; exact hband)]

/-- With a missing page and outside every special branch, the
substitution is `"_"`. -/
lemma replacer_fallback (store : Store) (o : Options) (cp : Nat)
    (hskip : ∀ r ∈ o.skipRanges, ¬(r.1 ≤ cp ∧ cp ≤ r.2))
    (hband : ¬((0x18 < cp >>> 8 ∧ cp >>> 8 < 0x1E) ∨
               (0xD7 < cp >>> 8 ∧ cp >>> 8 < 0xF9)))
    (hhigh : ¬(0xFF < cp >>> 8 ∧
               ¬(cp >>> 8 = 0x1F4 ∨ cp >>> 8 = 0x1F6 ∨ cp >>> 8 = 0x1F9)))
    (hs : store (cp >>> 8, (cp >>> 8 == 0) && o.german) = none)
    (hnot : ¬(o.smartSpacing = true ∧ cp = 0x2014)) :
    replacer store o cp = [0x5F] := by
  simp only [replacer]
  rw [if_neg (by rw [skipAny_eq_false hskip]; simp)]
  rw [if_neg (by simp only [Bool.or_eq_true, Bool.and_eq_true, decide_eq_true_eq]; exact hband)]
  rw [if_neg (by
    simp only [Bool.and_eq_true, decide_eq_true_eq, Bool.not_eq_true',
      Bool.or_eq_false_iff, beq_eq_false_iff_ne, ne_eq, gt_iff_lt]
    intro h
    exact hhigh ⟨h.1, by tauto⟩)]
  rw [pageEntry_none store (cp >>> 8, (cp >>> 8 == 0) && o.german) (cp &&& 255) hs]
  have hemf : (o.smartSpacing && (cp == 0x2014)) = false := by
    cases hsm : o.smartSpacing with
    | false => simp
    | true =>
      simp only [Bool.true_and, beq_eq_false_iff_ne, ne_eq]
      intro hcp
      exact hnot ⟨hsm, hcp⟩
  rw [hemf]
  simp

/-- The em-dash marker is emitted whenever smart spacing is on,
whatever the table holds. -/
lemma replacer_emdash (store : Store) (o : Options)
    (hskip : o.skipRanges = []) (hsm : o.smartSpacing = true) :
    replacer store o 0x2014 = [0x80, 0x2D, 0x2D, 0x80] := by
  simp [replacer, hskip, hsm]


/-! ## Supporting concrete values for the claims -/

/-- Raw options requesting smart spacing only. -/
def rawSmart : RawOptions := RawOptions.mk none (some true) none none

/-- Raw options requesting deferred smart spacing only. -/
def rawDeferred : RawOptions := RawOptions.mk none none (some true) none

/-- The empty cache. -/
def emptyCache : Cache := fun _ => none

/-- A cache holding the fallback page for row `(1, false)`. -/
def cacheFB : Cache := fun r => if r = ((1 : Nat), false) then some fallbackPage else none

/-! ## Claim theorems -/

/-- Claim C1: for every input string `s`, `resolveSpacing s` contains
no sentinel 0x80 or 0x81; consequently `transliterate` with
`smartSpacing = true` and `deferredSmartSpacing = false` never returns
a string containing 0x80 or 0x81. -/
theorem c1_no_sentinels_in_output (store : Store) (raw : RawOptions) (s : List Nat) :
    ((128 : Nat) ∉ resolveSpacing s ∧ (129 : Nat) ∉ resolveSpacing s) ∧
    ((prepareOptions raw).smartSpacing = true →
     (prepareOptions raw).deferredSmartSpacing = false →
     (128 : Nat) ∉ transliterate store raw s ∧ (129 : Nat) ∉ transliterate store raw s) := by
  refine ⟨resolveSpacing_no_sentinels s, fun hsm hdef => ?_⟩
  unfold transliterate unidecode
  split
  · simp
  · simp only [hsm, hdef, Bool.not_true, Bool.false_or, Bool.false_eq_true, if_false]
    exact resolveSpacing_no_sentinels _

theorem c1_no_sentinels_in_output_witness :
    ((128 : Nat) ∉ resolveSpacing [97, 8212, 98] ∧ (129 : Nat) ∉ resolveSpacing [97, 8212, 98]) ∧
    ((128 : Nat) ∉ transliterate storeEmpty rawSmart [97, 8212, 98] ∧
     (129 : Nat) ∉ transliterate storeEmpty rawSmart [97, 8212, 98]) :=
  ⟨(c1_no_sentinels_in_output storeEmpty rawSmart [97, 8212, 98]).1,
   (c1_no_sentinels_in_output storeEmpty rawSmart [97, 8212, 98]).2 (by decide) (by decide)⟩

/-- Claim C2: with `smartSpacing = true`, `deferredSmartSpacing = false`
and no skip ranges, `transliterate` maps `"a—b"` to exactly `"a - b"`,
for every table store (the em-dash is emitted as the marker triple
0x80, `--`, 0x80 regardless of the table entry). -/
theorem c2_emdash_spacing (store : Store) (raw : RawOptions)
    (hsm : (prepareOptions raw).smartSpacing = true)
    (hdef : (prepareOptions raw).deferredSmartSpacing = false)
    (hskip : (prepareOptions raw).skipRanges = []) :
    transliterate store raw [97, 0x2014, 98] = [97, 32, 45, 32, 98] := by
  have hg : germanLower (germanUpper [97, 8212, 98]) = [97, 8212, 98] := by decide
  have hrep : replacer store (prepareOptions raw) 8212 = [128, 45, 45, 128] :=
    replacer_emdash _ _ hskip hsm
  simp only [transliterate, unidecode, hg, hrep, hsm, hdef, List.flatMap_cons,
    List.flatMap_nil, Bool.not_true, Bool.false_or, Bool.false_eq_true, if_false,
    ite_self, List.isEmpty_cons]
  norm_num
  decide

theorem c2_emdash_spacing_witness :
    transliterate storeEmpty rawSmart [97, 0x2014, 98] = [97, 32, 45, 32, 98] :=
  c2_emdash_spacing storeEmpty rawSmart (by decide) (by decide) (by decide)

/-- Claim C3: ASCII-only input is returned unchanged by `transliterate`
for every options value, and no table page is consulted: the result is
the same for every store. -/
theorem c3_ascii_identity (store : Store) (raw : RawOptions) (s : List Nat)
    (h : ∀ c ∈ s, c ≤ 127) : transliterate store raw s = s := by
  have hg : germanLower (germanUpper s) = s := by
    unfold germanLower germanUpper
    rw [germanUpperF_id _ _ fun c hc => by have := h c hc; omega]
    exact germanLowerF_id _ _ fun c hc => by have := h c hc; omega
  have hscan : ∀ g : Nat → List Nat,
      (s.flatMap fun c => if c ≤ 127 then [c] else g c) = s :=
    fun g => scan_ascii_id g s h
  have hres : resolveSpacing s = s :=
    resolveSpacing_id s fun c hc => by have := h c hc; omega
  unfold transliterate unidecode
  simp only [hg, hscan, hres, ite_self]
  split
  · rename_i he
    exact ((List.isEmpty_iff).mp he).symm
  · rfl

theorem c3_ascii_identity_witness :
    transliterate storeEmpty rawSmart [104, 105, 33] = [104, 105, 33] :=
  c3_ascii_identity storeEmpty rawSmart [104, 105, 33] (by decide)

/-- Claim C4, counterexample: two deferred outputs (of the ASCII inputs
`"x"` and `"y"`) whose concatenated resolution is not the two separate
resolutions joined with a single space. -/
theorem c4_concat_counterexample :
    ¬(resolveSpacing (transliterate storeEmpty rawDeferred [120] ++
        transliterate storeEmpty rawDeferred [121]) =
      resolveSpacing (transliterate storeEmpty rawDeferred [120]) ++ [32] ++
        resolveSpacing (transliterate storeEmpty rawDeferred [121])) := by decide

/-- Claim C4, amended: for deferred outputs that are sentinel-free the
resolution of the concatenation is the concatenation of the
resolutions, with no space inserted; the space-joining identity of the
original claim fails in general. -/
theorem c4_concat_amended (store : Store) (raw : RawOptions) (sa sb : List Nat)
    (_hdef : (prepareOptions raw).deferredSmartSpacing = true)
    (ha : ∀ c ∈ transliterate store raw sa, c ≠ 128 ∧ c ≠ 129)
    (hb : ∀ c ∈ transliterate store raw sb, c ≠ 128 ∧ c ≠ 129) :
    resolveSpacing (transliterate store raw sa ++ transliterate store raw sb) =
      resolveSpacing (transliterate store raw sa) ++
        resolveSpacing (transliterate store raw sb) := by
  rw [resolveSpacing_id _ ha, resolveSpacing_id _ hb, resolveSpacing_id]
  intro c hc
  rcases List.mem_append.mp hc with h | h
  exacts [ha c h, hb c h]

theorem c4_concat_amended_witness :
    resolveSpacing (transliterate storeEmpty rawDeferred [120] ++
        transliterate storeEmpty rawDeferred [121]) =
      resolveSpacing (transliterate storeEmpty rawDeferred [120]) ++
        resolveSpacing (transliterate storeEmpty rawDeferred [121]) :=
  c4_concat_amended storeEmpty rawDeferred [120] [121] (by decide) (by decide) (by decide)

/-- Claim C5, counterexample: with smart spacing on and an unresolvable
page key for U+2014 (every load fails on `storeEmpty`), the em-dash
substitutes to the marker triple, not to `"_"`. -/
theorem c5_fallback_counterexample :
    storeEmpty (0x2014 >>> 8, (0x2014 >>> 8 == 0) && false) = none ∧
    replacer storeEmpty (Options.mk false true false []) 0x2014 =
      [0x80, 0x2D, 0x2D, 0x80] ∧
    ¬(replacer storeEmpty (Options.mk false true false []) 0x2014 = [0x5F]) := by
  decide

/-- Claim C5, amended: table-load failure is invisible to the caller:
(1) a code point that reaches table lookup with an unresolvable page
key substitutes to `"_"` — except U+2014 under smart spacing, which
emits its marker triple regardless of the table; (2) a cached row is
served from the cache, untouched, for every store; (3) a repeated load
of the same row returns the same page and leaves the cache unchanged;
(4) a failing load installs the fallback page in the cache, and that
page is 256 entries of `"_"`. -/
theorem c5_fallback_amended :
    (∀ (store : Store) (o : Options) (cp : Nat),
      (∀ r ∈ o.skipRanges, ¬(r.1 ≤ cp ∧ cp ≤ r.2)) →
      ¬((0x18 < cp >>> 8 ∧ cp >>> 8 < 0x1E) ∨ (0xD7 < cp >>> 8 ∧ cp >>> 8 < 0xF9)) →
      ¬(0xFF < cp >>> 8 ∧ ¬(cp >>> 8 = 0x1F4 ∨ cp >>> 8 = 0x1F6 ∨ cp >>> 8 = 0x1F9)) →
      store (cp >>> 8, (cp >>> 8 == 0) && o.german) = none →
      ¬(o.smartSpacing = true ∧ cp = 0x2014) →
      replacer store o cp = [0x5F]) ∧
    (∀ (store : Store) (cache : Cache) (row : Row) (p : Page),
      cache row = some p → loadPage store cache row = (p, cache)) ∧
    (∀ (store : Store) (cache : Cache) (row : Row),
      loadPage store (loadPage store cache row).2 row = loadPage store cache row) ∧
    (∀ (store : Store) (cache : Cache) (row : Row),
      cache row = none → store row = none →
      loadPage store cache row =
        (fallbackPage, fun r => if r = row then some fallbackPage else cache r)) ∧
    fallbackPage.length = 256 ∧ (∀ e ∈ fallbackPage, e = [0x5F]) := by
  refine ⟨replacer_fallback, loadPage_cached, loadPage_idem, loadPage_fallback, ?_, ?_⟩
  · exact List.length_replicate 256 [0x5F]
  · intro e he
    exact List.eq_of_mem_replicate he

theorem c5_fallback_amended_witness :
    replacer storeEmpty (Options.mk false false false []) 0x100 = [0x5F] ∧
    loadPage storeEmpty cacheFB (1, false) = (fallbackPage, cacheFB) ∧
    loadPage storeEmpty (loadPage storeEmpty emptyCache (1, false)).2 (1, false) =
      loadPage storeEmpty emptyCache (1, false) ∧
    loadPage storeEmpty emptyCache (0, false) =
      (fallbackPage, fun r => if r = ((0 : Nat), false) then some fallbackPage
        else emptyCache r) :=
  ⟨c5_fallback_amended.1 storeEmpty (Options.mk false false false []) 0x100
      (by simp) (by decide) (by decide) rfl (by decide),
   c5_fallback_amended.2.1 storeEmpty cacheFB (1, false) fallbackPage rfl,
   c5_fallback_amended.2.2.1 storeEmpty emptyCache (1, false),
   c5_fallback_amended.2.2.2.1 storeEmpty emptyCache (0, false) rfl rfl⟩

/-- Claim C6: every isolated surrogate scalar value (0xD800–0xDFFF) not
covered by a configured skip range is replaced by the empty string. -/
theorem c6_surrogates_dropped (store : Store) (o : Options) (cp : Nat)
    (h1 : 0xD800 ≤ cp) (h2 : cp ≤ 0xDFFF)
    (hskip : ∀ r ∈ o.skipRanges, ¬(r.1 ≤ cp ∧ cp ≤ r.2)) :
    replacer store o cp = [] := by
  apply replacer_band store o cp hskip
  right
  rw [Nat.shiftRight_eq_div_pow]
  norm_num
  omega

theorem c6_surrogates_dropped_witness :
    replacer storeEmpty (Options.mk false false false []) 0xD800 = [] :=
  c6_surrogates_dropped storeEmpty (Options.mk false false false []) 0xD800
    (by decide) (by decide) (by simp)

/-- Claim C7: a non-ASCII code point covered by some configured skip
range (inclusive on both ends) passes through as the original
character, for every store; in particular with
`skipRanges = [[0x00C0, 0x00FF]]` every code point of that range is
returned unchanged by `transliterate`. -/
theorem c7_skip_ranges :
    (∀ (store : Store) (o : Options) (cp lo hi : Nat), 0x7F < cp →
      (lo, hi) ∈ o.skipRanges → lo ≤ cp → cp ≤ hi →
      replacer store o cp = [cp]) ∧
    (∀ (store : Store) (cp : Nat), 0xC0 ≤ cp → cp ≤ 0xFF →
      transliterate store (RawOptions.mk none none none (some [(0xC0, 0xFF)]))
        [cp] = [cp]) := by
  constructor
  · intro store o cp lo hi _ hmem h1 h2
    exact replacer_skip store o cp lo hi hmem h1 h2
  · intro store cp h1 h2
    have hcp : ¬(cp ≤ 127) := by omega
    have hg : ∀ c ∈ [cp], c ≠ 776 := by
      intro c hc
      simp only [List.mem_singleton] at hc
      omega
    have hrep := replacer_skip store
      (Options.mk false false false [(0xC0, 0xFF)])
      cp 0xC0 0xFF (by simp) h1 h2
    simp [transliterate, unidecode, prepareOptions, hcp, hrep,
      List.flatMap_cons, List.flatMap_nil]

theorem c7_skip_ranges_witness :
    replacer storeEmpty (Options.mk false false false [(0xC0, 0xFF)]) 0xE9 = [0xE9] ∧
    transliterate storeEmpty (RawOptions.mk none none none (some [(0xC0, 0xFF)]))
      [0xC5] = [0xC5] :=
  ⟨c7_skip_ranges.1 storeEmpty (Options.mk false false false [(0xC0, 0xFF)])
      0xE9 0xC0 0xFF (by decide) (by decide) (by decide) (by decide),
   c7_skip_ranges.2 storeEmpty 0xC5 (by decide) (by decide)⟩

/-- Claim C8: `resolveSpacing` is the identity on every string that
contains neither 0x80 nor 0x81. -/
theorem c8_sentinel_free_identity (s : List Nat)
    (h : ∀ c ∈ s, c ≠ 128 ∧ c ≠ 129) : resolveSpacing s = s :=
  resolveSpacing_id s h

theorem c8_sentinel_free_identity_witness :
    resolveSpacing [97, 45, 45, 32, 98] = [97, 45, 45, 32, 98] :=
  c8_sentinel_free_identity [97, 45, 45, 32, 98] (by decide)

/-- Claim C9: every code point in U+1900–U+1DFF or U+E000–U+F8FF — none
of which is a surrogate — is also dropped (replaced by the empty
string) when not covered by a skip range, because the high-byte band
test covers these non-surrogate ranges too. -/
theorem c9_nonsurrogate_bands_dropped (store : Store) (o : Options) (cp : Nat)
    (hcp : (0x1900 ≤ cp ∧ cp ≤ 0x1DFF) ∨ (0xE000 ≤ cp ∧ cp ≤ 0xF8FF))
    (hskip : ∀ r ∈ o.skipRanges, ¬(r.1 ≤ cp ∧ cp ≤ r.2)) :
    replacer store o cp = [] ∧ ¬(0xD800 ≤ cp ∧ cp ≤ 0xDFFF) := by
  constructor
  · apply replacer_band store o cp hskip
    rw [Nat.shiftRight_eq_div_pow]
    norm_num
    omega
  · omega

theorem c9_nonsurrogate_bands_dropped_witness :
    replacer storeEmpty (Options.mk false false false []) 0xE000 = [] ∧
    ¬((0xD800 ≤ 0xE000 ∧ 0xE000 ≤ 0xDFFF)) :=
  c9_nonsurrogate_bands_dropped storeEmpty (Options.mk false false false [])
    0xE000 (by decide) (by simp)

/-- Claim C10: with `german = true` the diaeresis folding runs on the
whole string before the scan, so a skip range covering U+0308 does not
prevent it: `transliterate` maps `"A" ++ U+0308` to `"AE"` even with
`skipRanges = [[0x0308, 0x0308]]`, for every store. -/
theorem c10_german_before_skip (store : Store) :
    transliterate store (RawOptions.mk (some true) none none (some [(776, 776)]))
      [65, 776] = [65, 69] := by
  have hg : germanLower (germanUpper [65, 776]) = [65, 69] := by decide
  simp [transliterate, unidecode, prepareOptions, hg,
    List.flatMap_cons, List.flatMap_nil]

end UnidecodePlus
